import Mathlib

/-!
Shallow embedding of the work-time computation engine of the
attendance-record-book repository (`src/lib/attendanceService.ts`, active
variant) together with the aggregation enrichment performed by the admin
page (`handleAggregate`).  Instants are modelled as integer milliseconds on
the local wall-clock timeline (JS `Date.getTime()` with `getHours` reading
the local hour), JS `number` arithmetic on minute counts as `Int`, and the
floating-point pay computation as exact rationals.
-/

instance {ε α : Type} [DecidableEq ε] [DecidableEq α] : DecidableEq (Except ε α) := fun x y =>
  match x, y with
  | .ok a, .ok b =>
    if h : a = b then .isTrue (by rw [h]) else .isFalse (by simp [h])
  | .error a, .error b =>
    if h : a = b then .isTrue (by rw [h]) else .isFalse (by simp [h])
  | .ok _, .error _ => .isFalse (by simp)
  | .error _, .ok _ => .isFalse (by simp)

namespace AttendanceBook

/- Local wall-clock instants in milliseconds (JS `Date` / Firestore
`Timestamp.toDate()`) are plain `Int`; local midnight falls on multiples
of 86400000. -/

/-- `BreakRecord` from `src/lib/types.ts`: `{ start: Timestamp; end: Timestamp | null }`.
The `end` field is called `stop` because `end` is reserved in Lean. -/
structure BreakRecord where
  start : Int
  stop : Option Int
deriving Repr, DecidableEq

/-- The `{ regularWorkMinutes, nightWorkMinutes, totalWorkMinutes }` triple
returned by `calculateWorkMinutes`. -/
structure WorkMinutes where
  regularWorkMinutes : Int
  nightWorkMinutes : Int
  totalWorkMinutes : Int
deriving Repr, DecidableEq

/-- date-fns `startOfMinute` on a local-ms instant: floor to the minute. -/
def startOfMinute (t : Int) : Int := 60000 * (t / 60000)

/-- JS `Date.prototype.getHours` on a local-ms instant: the local hour of day. -/
def hourOf (t : Int) : Int := (t / 3600000) % 24

/-- The night test `hour >= 22 || hour < 5` from `calculateWorkMinutes`. -/
def isNightHour (h : Int) : Bool := decide (22 ≤ h) || decide (h < 5)

/-- The `breaks.some(...)` test inside the minute walk: a minute instant is a
break minute when some break has both endpoints and `start <= minute < end`. -/
def isBreakMinute (breaks : List BreakRecord) (m : Int) : Bool :=
  breaks.any fun b =>
    match b.stop with
    | none => false
    | some e => decide (b.start ≤ m) && decide (m < e)

/-- Number of iterations of the `while (currentMinute < checkOutDate)` loop
of `calculateWorkMinutes`, whose cursor starts at `startOfMinute checkIn`
and advances by 60000 ms: the least `n` with `som + 60000*n >= checkOut`. -/
def loopIters (som checkOut : Int) : Nat :=
  ((checkOut - som + 59999) / 60000).toNat

/-- The sequence of minute instants visited by the walk of
`calculateWorkMinutes`, in visiting order. -/
def minuteMarks (checkIn checkOut : Int) : List Int :=
  (List.range (loopIters (startOfMinute checkIn) checkOut)).map
    (fun k : Nat => startOfMinute checkIn + 60000 * (k : Int))

/-- `calculateWorkMinutes` (attendanceService.ts, minute-walk calculator):
walks `[startOfMinute checkIn, checkOut)` one minute at a time, skips break
minutes, and buckets the rest into night (local hour in 22..23 or 0..4) and
regular minutes.  `none` arguments model `undefined`/`null` inputs, for
which the source returns the all-zero triple. -/
def calculateWorkMinutes (checkIn : Option Int) (checkOut : Option Int)
    (breaks : List BreakRecord) : WorkMinutes :=
  match checkIn, checkOut with
  | some ci, some co =>
    let counted := (minuteMarks ci co).filter (fun m => !(isBreakMinute breaks m))
    let night := counted.countP (fun m => isNightHour (hourOf m))
    let regular := counted.countP (fun m => !(isNightHour (hourOf m)))
    ⟨(regular : Int), (night : Int), (regular : Int) + (night : Int)⟩
  | _, _ => ⟨0, 0, 0⟩

/-- date-fns `differenceInSeconds` with its default truncating rounding:
`trunc((a - b) / 1000)` (division toward zero). -/
def differenceInSeconds (a b : Int) : Int := Int.tdiv (a - b) 1000

/-- The legacy `calculateTotalWorkMinutes` (first variant of
attendanceService.ts): elapsed seconds minus the seconds of every closed
break, floored to minutes and clamped at zero by `totalMinutes > 0 ? ... : 0`. -/
def calculateTotalWorkMinutes (checkIn : Option Int) (checkOut : Option Int)
    (breaks : List BreakRecord) : Int :=
  match checkIn, checkOut with
  | some ci, some co =>
    let base := differenceInSeconds co ci
    let totalSeconds := breaks.foldl
      (fun acc b =>
        match b.stop with
        | none => acc
        | some e => acc - differenceInSeconds e b.start)
      base
    let totalMinutes := totalSeconds / 60
    if totalMinutes > 0 then totalMinutes else 0
  | _, _ => 0

/-- The `Attendance` document of `src/lib/types.ts` (active variant, with
the split minute fields).  `id` is the Firestore document id. -/
structure Attendance where
  id : Nat
  userId : String
  userName : String
  date : String
  checkIn : Int
  checkOut : Option Int
  breaks : List BreakRecord
  isModified : Bool
  regularWorkMinutes : Int
  nightWorkMinutes : Int
  totalWorkMinutes : Int
deriving Repr, DecidableEq

/-- The `attendance` collection, in document order. -/
abbrev Store := List Attendance

/-- The error kinds thrown by the service functions, one constructor per
distinct `throw new Error(...)` message. -/
inductive AttendanceError where
  | alreadyClockedIn
  | notClockedIn
  | attendanceRecordNotFound
  | alreadyOnBreak
  | notOnBreak
  | checkInRequired
  | updateFailed
  | addFailed
deriving Repr, DecidableEq

/-- `getOpenAttendanceRecordId`: among records with this `userId` and
`checkOut == null`, the one with the greatest `checkIn`
(`orderBy('checkIn','desc')`, `limit(1)`); `none` when there is none. -/
def getOpenAttendanceRecord (store : Store) (userId : String) : Option Attendance :=
  (store.filter fun r => r.userId == userId && r.checkOut == none).foldl
    (fun best r =>
      match best with
      | none => some r
      | some b => if b.checkIn < r.checkIn then some r else some b)
    none

/-- A fresh document id for `addDoc`. -/
def freshId (store : Store) : Nat :=
  store.foldl (fun m r => max m (r.id + 1)) 0

/-- `getDoc` by document id (first match). -/
def findById (store : Store) (recordId : Nat) : Option Attendance :=
  store.find? (fun r => r.id == recordId)

/-- `updateDoc`: apply a field update to the document(s) with this id. -/
def updateById (store : Store) (recordId : Nat) (f : Attendance → Attendance) : Store :=
  store.map (fun r => if r.id == recordId then f r else r)

/-- The open-break closing step of `clockOut`: `findIndex` of the first
break with `end === null`, then set its `end` to the clock-out time. -/
def closeOpenBreak : List BreakRecord → Int → List BreakRecord
  | [], _ => []
  | b :: bs, t =>
    match b.stop with
    | none => { b with stop := some t } :: bs
    | some _ => b :: closeOpenBreak bs t

/-- `clockIn(userId, userName)`: rejects when an open session exists,
otherwise `addDoc` of a fresh record with `checkOut: null`, `breaks: []`,
`isModified: false` and all three minute fields zero.  `now` stands for
`serverTimestamp()` and `dateStr` for `getTodayDateString()`. -/
def clockIn (now : Int) (dateStr : String) (userId userName : String)
    (store : Store) : Except AttendanceError Store :=
  match getOpenAttendanceRecord store userId with
  | some _ => .error .alreadyClockedIn
  | none =>
    .ok (store ++ [⟨freshId store, userId, userName, dateStr, now, none, [], false, 0, 0, 0⟩])

/-- `clockOut(userId)`: rejects without an open session; otherwise closes
any open break at `checkOutTime`, recomputes the minute fields with
`calculateWorkMinutes`, and writes `checkOut`, `breaks` and the minute
fields back. -/
def clockOut (now : Int) (userId : String) (store : Store) :
    Except AttendanceError Store :=
  match getOpenAttendanceRecord store userId with
  | none => .error .notClockedIn
  | some record =>
    let closedBreaks := closeOpenBreak record.breaks now
    let wm := calculateWorkMinutes (some record.checkIn) (some now) closedBreaks
    .ok (updateById store record.id fun r =>
      { r with
        checkOut := some now
        breaks := closedBreaks
        regularWorkMinutes := wm.regularWorkMinutes
        nightWorkMinutes := wm.nightWorkMinutes
        totalWorkMinutes := wm.totalWorkMinutes })

/-- `startBreak(userId)`: rejects without an open session or with an open
break; otherwise appends `{ start: now, end: null }`. -/
def startBreak (now : Int) (userId : String) (store : Store) :
    Except AttendanceError Store :=
  match getOpenAttendanceRecord store userId with
  | none => .error .notClockedIn
  | some record =>
    if record.breaks.any (fun b => b.stop == none) then
      .error .alreadyOnBreak
    else
      .ok (updateById store record.id fun r =>
        { r with breaks := record.breaks ++ [⟨now, none⟩] })

/-- `endBreak(userId)`: rejects without an open session or open break;
otherwise sets `end := now` on the first open break. -/
def endBreak (now : Int) (userId : String) (store : Store) :
    Except AttendanceError Store :=
  match getOpenAttendanceRecord store userId with
  | none => .error .notClockedIn
  | some record =>
    if record.breaks.any (fun b => b.stop == none) then
      .ok (updateById store record.id fun r =>
        { r with breaks := closeOpenBreak record.breaks now })
    else
      .error .notOnBreak

/-- The `Partial<Attendance>` argument of `updateAttendanceRecord`,
restricted to the fields the function inspects.  A present `checkIn` is a
real instant (the TS type forbids a null `checkIn` and the admin form
guards it); `checkOut` may be present-as-null (`some none`), which the
edit form produces for a cleared field; a present `breaks` array (even an
empty one) is truthy in JS. -/
structure UpdatedFields where
  checkIn : Option Int
  checkOut : Option (Option Int)
  breaks : Option (List BreakRecord)
deriving Repr, DecidableEq

/-- JS truthiness of `updatedFields.checkOut`: present and not `null`. -/
def truthyTs : Option (Option Int) → Bool
  | some (some _) => true
  | _ => false

/-- `const newCheckIn = updatedFields.checkIn || currentRecord.checkIn`. -/
def newCheckInOf (uf : UpdatedFields) (cur : Attendance) : Int :=
  uf.checkIn.getD cur.checkIn

/-- `const newCheckOut = updatedFields.checkOut || currentRecord.checkOut`:
under JS `||`, an update to `null` falls back to the current value. -/
def newCheckOutOf (uf : UpdatedFields) (cur : Attendance) : Option Int :=
  match uf.checkOut with
  | some (some t) => some t
  | _ => cur.checkOut

/-- `const newBreaks = updatedFields.breaks || currentRecord.breaks`. -/
def newBreaksOf (uf : UpdatedFields) (cur : Attendance) : List BreakRecord :=
  uf.breaks.getD cur.breaks

/-- `if (updatedFields.checkIn || updatedFields.checkOut || updatedFields.breaks)`:
the recompute guard; a `checkOut: null` update is falsy and does not
trigger recomputation. -/
def recomputeCond (uf : UpdatedFields) : Bool :=
  uf.checkIn.isSome || truthyTs uf.checkOut || uf.breaks.isSome

/-- The body of `updateAttendanceRecord` before its `try/catch` wrapper:
merge with `||`, recompute the minute fields only when `recomputeCond`
holds, then write the spread of the updates (so a `null` `checkOut` IS
persisted), the minute fields, and `isModified: true`. -/
def updateAttendanceRecordBody (recordId : Nat) (uf : UpdatedFields)
    (store : Store) : Except AttendanceError Store :=
  match findById store recordId with
  | none => .error .attendanceRecordNotFound
  | some currentRecord =>
    let workMinutes : WorkMinutes :=
      if recomputeCond uf then
        calculateWorkMinutes (some (newCheckInOf uf currentRecord))
          (newCheckOutOf uf currentRecord) (newBreaksOf uf currentRecord)
      else
        ⟨currentRecord.regularWorkMinutes, currentRecord.nightWorkMinutes,
          currentRecord.totalWorkMinutes⟩
    .ok (updateById store recordId fun r =>
      { r with
        checkIn := uf.checkIn.getD r.checkIn
        checkOut := match uf.checkOut with
          | some v => v
          | none => r.checkOut
        breaks := uf.breaks.getD r.breaks
        regularWorkMinutes := workMinutes.regularWorkMinutes
        nightWorkMinutes := workMinutes.nightWorkMinutes
        totalWorkMinutes := workMinutes.totalWorkMinutes
        isModified := true })

/-- `updateAttendanceRecord`: the whole body runs inside `try/catch`, and the
catch block rethrows the generic `"Failed to update attendance record."`,
so every inner error (including the not-found one) reaches the caller as
`updateFailed`. -/
def updateAttendanceRecord (recordId : Nat) (uf : UpdatedFields)
    (store : Store) : Except AttendanceError Store :=
  match updateAttendanceRecordBody recordId uf store with
  | .ok s => .ok s
  | .error _ => .error .updateFailed

/-- The argument record of `addAttendanceRecord`.  `checkIn` is typed as
required, but the source still guards `if (!checkIn) throw`, so it is
modelled as optional; `breaks` defaults to `[]` at the call site. -/
structure NewRecordData where
  userId : String
  userName : String
  date : String
  checkIn : Option Int
  checkOut : Option Int
  breaks : List BreakRecord
deriving Repr, DecidableEq

/-- `addAttendanceRecord`: rejects a missing `checkIn` (this throw sits
before the `try/catch`, which only wraps the `addDoc` write), computes the
minute fields, and inserts the record with `isModified: true`. -/
def addAttendanceRecord (nd : NewRecordData) (store : Store) :
    Except AttendanceError Store :=
  match nd.checkIn with
  | none => .error .checkInRequired
  | some ci =>
    let wm := calculateWorkMinutes (some ci) nd.checkOut nd.breaks
    .ok (store ++ [⟨freshId store, nd.userId, nd.userName, nd.date, ci, nd.checkOut,
      nd.breaks, true, wm.regularWorkMinutes, wm.nightWorkMinutes, wm.totalWorkMinutes⟩])

/-- One value of the map built by `getAggregatedAttendance`. -/
structure AggEntry where
  userName : String
  regularWorkMinutes : Int
  nightWorkMinutes : Int
  totalWorkMinutes : Int
deriving Repr, DecidableEq

/-- JS `Map.get`. -/
def lookupAssoc (l : List (String × AggEntry)) (k : String) : Option AggEntry :=
  match l with
  | [] => none
  | (k1, v) :: rest => if k1 == k then some v else lookupAssoc rest k

/-- JS `Map.set`: replace in place, else append. -/
def setAssoc (l : List (String × AggEntry)) (k : String) (v : AggEntry) :
    List (String × AggEntry) :=
  match l with
  | [] => [(k, v)]
  | (k1, v1) :: rest =>
    if k1 == k then (k, v) :: rest else (k1, v1) :: setAssoc rest k v

/-- The `querySnapshot.forEach` body of `getAggregatedAttendance`: fetch the
running entry for the record's user (zeroes with the record's `userName`
when absent) and add the record's three minute fields.  The source's
`|| 0` guards are identity on the modelled integer fields. -/
def aggStep (acc : List (String × AggEntry)) (r : Attendance) :
    List (String × AggEntry) :=
  let current := (lookupAssoc acc r.userId).getD ⟨r.userName, 0, 0, 0⟩
  setAssoc acc r.userId
    { current with
      regularWorkMinutes := current.regularWorkMinutes + r.regularWorkMinutes
      nightWorkMinutes := current.nightWorkMinutes + r.nightWorkMinutes
      totalWorkMinutes := current.totalWorkMinutes + r.totalWorkMinutes }

/-- `getAggregatedAttendance` applied to the records the date-range /
user query returns (range filtering is the caller's query concern). -/
def getAggregatedAttendance (records : List Attendance) :
    List (String × AggEntry) :=
  records.foldl aggStep []

/-- JS `Math.round` on the exact-rational embedding of JS numbers:
round half toward positive infinity. -/
def mathRound (x : ℚ) : Int := Int.floor (x + 1 / 2)

/-- The pay enrichment of `handleAggregate` (admin attendance page):
`regularPay = regular/60 * rate`, `nightPay = night/60 * rate * 1.5`,
`estimatedSalary = Math.round(regularPay + nightPay)`. -/
def estimatedSalary (regularWorkMinutes nightWorkMinutes : Int)
    (hourlyRate : ℚ) : Int :=
  let regularPay : ℚ := ((regularWorkMinutes : ℚ) / 60) * hourlyRate
  let nightPay : ℚ := ((nightWorkMinutes : ℚ) / 60) * hourlyRate * (3 / 2)
  mathRound (regularPay + nightPay)

/-- 2026-01-01 h:00 on the local wall-clock timeline, in milliseconds
(20454 days separate 1970-01-01 and 2026-01-01). -/
def jan1at (h : Int) : Int := (20454 * 24 + h) * 3600000

/-- 2026-01-02 h:00 on the local wall-clock timeline, in milliseconds. -/
def jan2at (h : Int) : Int := (20455 * 24 + h) * 3600000

/-- The derived-field invariant of a stored record: the three minute fields
are non-negative and total is the sum of regular and night. -/
def derivedWellFormed (r : Attendance) : Prop :=
  r.totalWorkMinutes = r.regularWorkMinutes + r.nightWorkMinutes ∧
  0 ≤ r.regularWorkMinutes ∧ 0 ≤ r.nightWorkMinutes ∧ 0 ≤ r.totalWorkMinutes

instance (r : Attendance) : Decidable (derivedWellFormed r) := by
  unfold derivedWellFormed; infer_instance

/-! General lemmas about the minute walk. -/

/-- The instants the walk of `calculateWorkMinutes` visits are exactly the
whole minutes of `[startOfMinute checkIn, checkOut)` aligned to the
check-in minute grid. -/
theorem mem_minuteMarks {ci co m : Int} :
    m ∈ minuteMarks ci co ↔
      startOfMinute ci ≤ m ∧ m < co ∧ (60000 : Int) ∣ (m - startOfMinute ci) := by
  unfold minuteMarks loopIters
  simp only [List.mem_map, List.mem_range]
  constructor
  · rintro ⟨k, hk, rfl⟩
    refine ⟨by omega, by omega, ⟨(k : Int), by ring⟩⟩
  · rintro ⟨h1, h2, c, hc⟩
    exact ⟨c.toNat, by omega, by omega⟩

/-- The night test of the walk holds exactly on the hour set
`{22, 23, 0, 1, 2, 3, 4}`. -/
theorem isNightHour_hourOf (m : Int) :
    isNightHour (hourOf m) = decide (hourOf m ∈ ([22, 23, 0, 1, 2, 3, 4] : List Int)) := by
  have h1 : 0 ≤ hourOf m := by unfold hourOf; omega
  have h2 : hourOf m < 24 := by unfold hourOf; omega
  unfold isNightHour
  generalize hourOf m = h at h1 h2 ⊢
  interval_cases h <;> decide

/-- With no breaks, the walk counts every visited minute. -/
theorem noBreaks_filter (ci co : Int) :
    (minuteMarks ci co).filter (fun m => !(isBreakMinute [] m)) = minuteMarks ci co := by
  simp [isBreakMinute]

theorem length_minuteMarks (ci co : Int) :
    (minuteMarks ci co).length = loopIters (startOfMinute ci) co := by
  unfold minuteMarks
  rw [List.length_map, List.length_range]

/-- With no breaks, regular plus night minutes is the number of visited
minute marks. -/
theorem calc_sum_noBreaks (ci co : Int) :
    (calculateWorkMinutes (some ci) (some co) []).regularWorkMinutes +
      (calculateWorkMinutes (some ci) (some co) []).nightWorkMinutes =
      ((minuteMarks ci co).length : Int) := by
  simp only [calculateWorkMinutes, noBreaks_filter]
  have h := List.length_eq_countP_add_countP
    (fun m => isNightHour (hourOf m)) (minuteMarks ci co)
  simp only [decide_not, Bool.decide_eq_true] at h
  omega

/-! Claim C2. -/

set_option maxRecDepth 100000 in
/-- C2: with no breaks, `calculateWorkMinutes` classifies exactly the whole
minutes of `[checkIn, checkOut)` (on the check-in minute grid), counting a
minute as night precisely when its local hour of day lies in
`{22, 23, 0, 1, 2, 3, 4}` and as regular otherwise; for the local instants
2026-01-01 22:00 and 2026-01-02 10:00 it returns
`totalMinutes = 720`, `nightMinutes = 420`, `regularMinutes = 300`. -/
theorem calculateWorkMinutes_night_window :
    (∀ ci co m : Int, m ∈ minuteMarks ci co ↔
      (startOfMinute ci ≤ m ∧ m < co ∧ (60000 : Int) ∣ (m - startOfMinute ci)))
    ∧ (∀ ci co : Int,
        (calculateWorkMinutes (some ci) (some co) []).nightWorkMinutes =
          ((minuteMarks ci co).countP
            (fun m => decide (hourOf m ∈ ([22, 23, 0, 1, 2, 3, 4] : List Int))) : Int)
        ∧ (calculateWorkMinutes (some ci) (some co) []).regularWorkMinutes =
          ((minuteMarks ci co).countP
            (fun m => !decide (hourOf m ∈ ([22, 23, 0, 1, 2, 3, 4] : List Int))) : Int))
    ∧ calculateWorkMinutes (some (jan1at 22)) (some (jan2at 10)) [] = ⟨300, 420, 720⟩ := by
  refine ⟨fun ci co m => mem_minuteMarks, fun ci co => ?_, by decide⟩
  simp only [calculateWorkMinutes, noBreaks_filter]
  constructor
  · congr 1
    exact List.countP_congr fun m _ => by rw [isNightHour_hourOf]
  · congr 1
    exact List.countP_congr fun m _ => by rw [isNightHour_hourOf]

/-! Claim C3. -/

/-- C3 counterexample: for `checkIn = 30000` (00:00:30) and
`checkOut = 90000` (00:01:30), an elapsed span of exactly one minute with
no breaks, the claim's hypotheses hold, yet `calculateWorkMinutes` returns
`regular + night = 2`, not `floor((checkOut - checkIn)/60000) = 1`: the walk
starts at `startOfMinute checkIn`, so off-boundary check-ins over-count. -/
theorem calculateWorkMinutes_not_floor_elapsed :
    (30000 : Int) ≤ 90000 ∧
    (calculateWorkMinutes (some 30000) (some 90000) []).regularWorkMinutes +
      (calculateWorkMinutes (some 30000) (some 90000) []).nightWorkMinutes ≠
      ((90000 : Int) - 30000) / 60000 := by decide

/-- C3 (amended): for all `checkIn ≤ checkOut` with no breaks,
`regular + night` equals the number of minute marks of the walk, i.e.
`ceil((checkOut - startOfMinute checkIn)/60000)`; when `checkIn` and
`checkOut` both lie on exact minute boundaries this equals
`floor((checkOut - checkIn)/60000)`. -/
theorem calculateWorkMinutes_total_elapsed (ci co : Int) (h : ci ≤ co) :
    ((calculateWorkMinutes (some ci) (some co) []).regularWorkMinutes +
      (calculateWorkMinutes (some ci) (some co) []).nightWorkMinutes =
      (co - startOfMinute ci + 59999) / 60000)
    ∧ ((60000 : Int) ∣ ci → (60000 : Int) ∣ co →
      (calculateWorkMinutes (some ci) (some co) []).regularWorkMinutes +
        (calculateWorkMinutes (some ci) (some co) []).nightWorkMinutes =
        (co - ci) / 60000) := by
  have hs := calc_sum_noBreaks ci co
  rw [length_minuteMarks] at hs
  unfold loopIters at hs
  unfold startOfMinute at hs ⊢
  constructor
  · omega
  · intro h1 h2
    omega

/-- Witness for the amended C3 at `checkIn = 0`, `checkOut = 120000`. -/
theorem calculateWorkMinutes_total_elapsed_witness :
    (0 : Int) ≤ 120000 ∧
    (((calculateWorkMinutes (some 0) (some 120000) []).regularWorkMinutes +
      (calculateWorkMinutes (some 0) (some 120000) []).nightWorkMinutes =
      ((120000 : Int) - startOfMinute 0 + 59999) / 60000)
    ∧ ((60000 : Int) ∣ (0 : Int) → (60000 : Int) ∣ (120000 : Int) →
      (calculateWorkMinutes (some 0) (some 120000) []).regularWorkMinutes +
        (calculateWorkMinutes (some 0) (some 120000) []).nightWorkMinutes =
        ((120000 : Int) - 0) / 60000)) :=
  ⟨by decide, calculateWorkMinutes_total_elapsed 0 120000 (by decide)⟩

/-! Claim C1. -/

/-- Closing the open break never changes how many break intervals exist. -/
theorem closeOpenBreak_length (bs : List BreakRecord) (t : Int) :
    (closeOpenBreak bs t).length = bs.length := by
  induction bs with
  | nil => rfl
  | cons b rest ih =>
    unfold closeOpenBreak
    cases b.stop <;> simp [ih]

set_option maxRecDepth 100000 in
/-- C1 counterexample: a shift clocked in at 2026-01-01 09:00 local with no
breaks and clocked out at 17:30 (510 elapsed minutes, `workMinutes = 510 ≥
480`, `breakMinutes = 0 < 60`).  `clockOut` records `checkOut` exactly at
17:30 (not pushed to 18:30), appends no synthetic break (`breaks` stays
empty, so the total break stays `0 < 60`), and stores
`totalWorkMinutes = 510`, not `480`: no minimum-break top-up exists. -/
theorem clockOut_no_top_up_counterexample :
    clockOut (jan1at 9 + 510 * 60000) "e1"
      [⟨0, "e1", "n", "2026-01-01", jan1at 9, none, [], false, 0, 0, 0⟩] =
    .ok [⟨0, "e1", "n", "2026-01-01", jan1at 9,
      some (jan1at 9 + 510 * 60000), [], false, 510, 0, 510⟩]
    ∧ (510 : Int) ≠ 480
    ∧ jan1at 9 + 510 * 60000 ≠ jan1at 9 + 510 * 60000 + 60 * 60000 := by
  refine ⟨by decide, by decide, by omega⟩

/-- C1 (amended): `clockOut` on an open record sets `checkOut` to exactly
the clock-out instant, closes any open break at that instant, recomputes
the three minute fields with `calculateWorkMinutes` on the unmodified
check-in and the closed breaks, and never appends a break interval (the
break count is unchanged); there is no minimum-break top-up. -/
theorem clockOut_spec (store : Store) (uid : String) (now : Int)
    (rec : Attendance) (h : getOpenAttendanceRecord store uid = some rec) :
    clockOut now uid store = .ok (updateById store rec.id fun r =>
      { r with
        checkOut := some now
        breaks := closeOpenBreak rec.breaks now
        regularWorkMinutes := (calculateWorkMinutes (some rec.checkIn) (some now)
          (closeOpenBreak rec.breaks now)).regularWorkMinutes
        nightWorkMinutes := (calculateWorkMinutes (some rec.checkIn) (some now)
          (closeOpenBreak rec.breaks now)).nightWorkMinutes
        totalWorkMinutes := (calculateWorkMinutes (some rec.checkIn) (some now)
          (closeOpenBreak rec.breaks now)).totalWorkMinutes })
    ∧ (closeOpenBreak rec.breaks now).length = rec.breaks.length := by
  unfold clockOut
  rw [h]
  exact ⟨rfl, closeOpenBreak_length rec.breaks now⟩

/-- Witness for the amended C1 on the 09:00 → 17:30 zero-break shift. -/
theorem clockOut_spec_witness :
    getOpenAttendanceRecord
      [⟨0, "e1", "n", "2026-01-01", jan1at 9, none, [], false, 0, 0, 0⟩] "e1" =
      some ⟨0, "e1", "n", "2026-01-01", jan1at 9, none, [], false, 0, 0, 0⟩
    ∧ (clockOut (jan1at 9 + 510 * 60000) "e1"
        [⟨0, "e1", "n", "2026-01-01", jan1at 9, none, [], false, 0, 0, 0⟩] =
      .ok (updateById
        [⟨0, "e1", "n", "2026-01-01", jan1at 9, none, [], false, 0, 0, 0⟩]
        (0 : Nat) fun r =>
        { r with
          checkOut := some (jan1at 9 + 510 * 60000)
          breaks := closeOpenBreak [] (jan1at 9 + 510 * 60000)
          regularWorkMinutes := (calculateWorkMinutes (some (jan1at 9)) (some (jan1at 9 + 510 * 60000))
            (closeOpenBreak [] (jan1at 9 + 510 * 60000))).regularWorkMinutes
          nightWorkMinutes := (calculateWorkMinutes (some (jan1at 9)) (some (jan1at 9 + 510 * 60000))
            (closeOpenBreak [] (jan1at 9 + 510 * 60000))).nightWorkMinutes
          totalWorkMinutes := (calculateWorkMinutes (some (jan1at 9)) (some (jan1at 9 + 510 * 60000))
            (closeOpenBreak [] (jan1at 9 + 510 * 60000))).totalWorkMinutes })
      ∧ (closeOpenBreak ([] : List BreakRecord) (jan1at 9 + 510 * 60000)).length =
        ([] : List BreakRecord).length) :=
  ⟨by decide,
    clockOut_spec
      [⟨0, "e1", "n", "2026-01-01", jan1at 9, none, [], false, 0, 0, 0⟩]
      "e1" (jan1at 9 + 510 * 60000)
      ⟨0, "e1", "n", "2026-01-01", jan1at 9, none, [], false, 0, 0, 0⟩
      (by decide)⟩

/-! Claim C4. -/

/-- Every output of the minute-walk calculator satisfies the invariant,
whatever the inputs (missing fields, `checkOut < checkIn`, malformed
breaks included). -/
theorem calculateWorkMinutes_wf (ci co : Option Int) (bs : List BreakRecord) :
    (calculateWorkMinutes ci co bs).totalWorkMinutes =
      (calculateWorkMinutes ci co bs).regularWorkMinutes +
        (calculateWorkMinutes ci co bs).nightWorkMinutes ∧
    0 ≤ (calculateWorkMinutes ci co bs).regularWorkMinutes ∧
    0 ≤ (calculateWorkMinutes ci co bs).nightWorkMinutes ∧
    0 ≤ (calculateWorkMinutes ci co bs).totalWorkMinutes := by
  unfold calculateWorkMinutes
  cases ci <;> cases co <;> simp
  positivity

/-- Membership in an `updateDoc` result: every record either came through
the update function (matching id) or is an untouched store record. -/
theorem mem_updateById {store : Store} {rid : Nat} {f : Attendance → Attendance}
    {r : Attendance} (h : r ∈ updateById store rid f) :
    ∃ r0, r0 ∈ store ∧ (r = f r0 ∨ r = r0) := by
  unfold updateById at h
  obtain ⟨r0, h0, hr⟩ := List.mem_map.mp h
  by_cases hid : r0.id = rid
  · refine ⟨r0, h0, Or.inl ?_⟩
    rw [← hr, hid]
    simp
  · refine ⟨r0, h0, Or.inr ?_⟩
    rw [← hr]
    simp [hid]

/-- A fetched record is a store record. -/
theorem mem_of_findById {store : Store} {rid : Nat} {r : Attendance}
    (h : findById store rid = some r) : r ∈ store :=
  List.mem_of_find?_eq_some h

/-- C4: starting from any store whose records satisfy the derived-field
invariant, every record persisted by `clockIn`, `clockOut`,
`updateAttendanceRecord` or `addAttendanceRecord` still satisfies
`totalWorkMinutes = regularWorkMinutes + nightWorkMinutes` with all three
fields non-negative, for all inputs (including `checkOut` before `checkIn`
and malformed break intervals). -/
theorem derived_fields_invariant (store : Store)
    (hst : ∀ r ∈ store, derivedWellFormed r) :
    (∀ now dateStr uid uname s, clockIn now dateStr uid uname store = .ok s →
      ∀ r ∈ s, derivedWellFormed r)
    ∧ (∀ now uid s, clockOut now uid store = .ok s → ∀ r ∈ s, derivedWellFormed r)
    ∧ (∀ rid uf s, updateAttendanceRecord rid uf store = .ok s →
      ∀ r ∈ s, derivedWellFormed r)
    ∧ (∀ nd s, addAttendanceRecord nd store = .ok s → ∀ r ∈ s, derivedWellFormed r) := by
  refine ⟨?_, ?_, ?_, ?_⟩
  · intro now dateStr uid uname s hok r hr
    unfold clockIn at hok
    cases hE : getOpenAttendanceRecord store uid <;> rw [hE] at hok
    · simp only [Except.ok.injEq] at hok
      subst hok
      rcases List.mem_append.mp hr with h | h
      · exact hst r h
      · simp only [List.mem_singleton] at h
        subst h
        exact ⟨rfl, le_refl 0, le_refl 0, le_refl 0⟩
    · exact absurd hok (by simp)
  · intro now uid s hok r hr
    unfold clockOut at hok
    cases hE : getOpenAttendanceRecord store uid <;> rw [hE] at hok
    · exact absurd hok (by simp)
    · rename_i rec
      simp only [Except.ok.injEq] at hok
      subst hok
      obtain ⟨r0, h0, hcase⟩ := mem_updateById hr
      rcases hcase with h | h
      · rw [h]
        have hwf := calculateWorkMinutes_wf (some rec.checkIn) (some now)
          (closeOpenBreak rec.breaks now)
        exact ⟨hwf.1, hwf.2.1, hwf.2.2.1, hwf.2.2.2⟩
      · rw [h]
        exact hst r0 h0
  · intro rid uf s hok r hr
    unfold updateAttendanceRecord updateAttendanceRecordBody at hok
    cases hF : findById store rid <;> rw [hF] at hok
    · exact absurd hok (by simp)
    · rename_i cur
      simp only [Except.ok.injEq] at hok
      subst hok
      obtain ⟨r0, h0, hcase⟩ := mem_updateById hr
      rcases hcase with h | h
      · rw [h]
        by_cases hc : recomputeCond uf = true
        · simp only [hc, if_true]
          exact ⟨(calculateWorkMinutes_wf _ _ _).1,
            (calculateWorkMinutes_wf _ _ _).2.1,
            (calculateWorkMinutes_wf _ _ _).2.2.1,
            (calculateWorkMinutes_wf _ _ _).2.2.2⟩
        · simp only [Bool.not_eq_true] at hc
          simp only [hc, if_false]
          have hwf := hst cur (mem_of_findById hF)
          exact ⟨hwf.1, hwf.2.1, hwf.2.2.1, hwf.2.2.2⟩
      · rw [h]
        exact hst r0 h0
  · intro nd s hok r hr
    unfold addAttendanceRecord at hok
    cases hN : nd.checkIn <;> rw [hN] at hok
    · exact absurd hok (by simp)
    · rename_i ci
      simp only [Except.ok.injEq] at hok
      subst hok
      rcases List.mem_append.mp hr with h | h
      · exact hst r h
      · simp only [List.mem_singleton] at h
        subst h
        have := calculateWorkMinutes_wf (some ci) nd.checkOut nd.breaks
        exact ⟨this.1, this.2.1, this.2.2.1, this.2.2.2⟩

/-- Witness for C4: the empty store satisfies the hypothesis, and a
concrete `clockIn` result keeps the invariant. -/
theorem derived_fields_invariant_witness :
    (∀ r ∈ ([] : Store), derivedWellFormed r) ∧
    (∀ now dateStr uid uname s, clockIn now dateStr uid uname ([] : Store) = .ok s →
      ∀ r ∈ s, derivedWellFormed r) :=
  ⟨by simp, (derived_fields_invariant [] (by simp)).1⟩

/-! Claim C5. -/

/-- C5 counterexample: editing a closed record (10:00 → 11:00, 60 regular
minutes stored) with `{checkOut: null}` changes `checkOut`, yet the
persisted minute fields stay `(60, 0, 60)` instead of being recomputed
from the merged fields — `calculateWorkMinutes` with the updated (null)
`checkOut` returns 0 — because the JS `||` guard treats the null update as
absent. (`isModified` is still set.) -/
theorem updateAttendanceRecord_no_recompute_counterexample :
    updateAttendanceRecord 0 ⟨none, some none, none⟩
      [⟨0, "e1", "n", "2026-01-01", jan1at 10, some (jan1at 11), [], false, 60, 0, 60⟩] =
    .ok [⟨0, "e1", "n", "2026-01-01", jan1at 10, none, [], true, 60, 0, 60⟩]
    ∧ (60 : Int) ≠ (calculateWorkMinutes (some (jan1at 10)) none []).totalWorkMinutes := by
  exact ⟨by decide, by decide⟩

/-- C5 (amended): whenever an administrative edit supplies a `checkIn`, a
non-null `checkOut`, or a `breaks` array (the JS-truthy cases of the
guard), the persisted record carries the minute fields recomputed by the
Calculator from the merged updated-or-current `checkIn`, `checkOut` and
`breaks`, and `isModified` is set to `true`; an edit whose only change is
`checkOut: null` skips the recomputation (see the C9 theorem). -/
theorem updateAttendanceRecord_recompute_spec (store : Store) (rid : Nat)
    (uf : UpdatedFields) (cur : Attendance)
    (hF : findById store rid = some cur) (hc : recomputeCond uf = true) :
    updateAttendanceRecord rid uf store = .ok (updateById store rid fun r =>
      { r with
        checkIn := uf.checkIn.getD r.checkIn
        checkOut := match uf.checkOut with
          | some v => v
          | none => r.checkOut
        breaks := uf.breaks.getD r.breaks
        regularWorkMinutes := (calculateWorkMinutes (some (newCheckInOf uf cur))
          (newCheckOutOf uf cur) (newBreaksOf uf cur)).regularWorkMinutes
        nightWorkMinutes := (calculateWorkMinutes (some (newCheckInOf uf cur))
          (newCheckOutOf uf cur) (newBreaksOf uf cur)).nightWorkMinutes
        totalWorkMinutes := (calculateWorkMinutes (some (newCheckInOf uf cur))
          (newCheckOutOf uf cur) (newBreaksOf uf cur)).totalWorkMinutes
        isModified := true }) := by
  unfold updateAttendanceRecord updateAttendanceRecordBody
  rw [hF]
  simp only [if_pos hc]

/-- Witness for the amended C5: setting `checkOut` to 11:00 on an open
10:00 record recomputes the minute fields (60 regular minutes). -/
theorem updateAttendanceRecord_recompute_spec_witness :
    findById [⟨0, "e1", "n", "2026-01-01", jan1at 10, none, [], false, 0, 0, 0⟩] 0 =
      some ⟨0, "e1", "n", "2026-01-01", jan1at 10, none, [], false, 0, 0, 0⟩
    ∧ recomputeCond ⟨none, some (some (jan1at 11)), none⟩ = true
    ∧ updateAttendanceRecord 0 ⟨none, some (some (jan1at 11)), none⟩
        [⟨0, "e1", "n", "2026-01-01", jan1at 10, none, [], false, 0, 0, 0⟩] =
      .ok (updateById [⟨0, "e1", "n", "2026-01-01", jan1at 10, none, [], false, 0, 0, 0⟩]
        (0 : Nat) fun r =>
        { r with
          checkIn := (none : Option Int).getD r.checkIn
          checkOut := match (some (some (jan1at 11)) : Option (Option Int)) with
            | some v => v
            | none => r.checkOut
          breaks := (none : Option (List BreakRecord)).getD r.breaks
          regularWorkMinutes := (calculateWorkMinutes
            (some (newCheckInOf ⟨none, some (some (jan1at 11)), none⟩
              ⟨0, "e1", "n", "2026-01-01", jan1at 10, none, [], false, 0, 0, 0⟩))
            (newCheckOutOf ⟨none, some (some (jan1at 11)), none⟩
              ⟨0, "e1", "n", "2026-01-01", jan1at 10, none, [], false, 0, 0, 0⟩)
            (newBreaksOf ⟨none, some (some (jan1at 11)), none⟩
              ⟨0, "e1", "n", "2026-01-01", jan1at 10, none, [], false, 0, 0, 0⟩)).regularWorkMinutes
          nightWorkMinutes := (calculateWorkMinutes
            (some (newCheckInOf ⟨none, some (some (jan1at 11)), none⟩
              ⟨0, "e1", "n", "2026-01-01", jan1at 10, none, [], false, 0, 0, 0⟩))
            (newCheckOutOf ⟨none, some (some (jan1at 11)), none⟩
              ⟨0, "e1", "n", "2026-01-01", jan1at 10, none, [], false, 0, 0, 0⟩)
            (newBreaksOf ⟨none, some (some (jan1at 11)), none⟩
              ⟨0, "e1", "n", "2026-01-01", jan1at 10, none, [], false, 0, 0, 0⟩)).nightWorkMinutes
          totalWorkMinutes := (calculateWorkMinutes
            (some (newCheckInOf ⟨none, some (some (jan1at 11)), none⟩
              ⟨0, "e1", "n", "2026-01-01", jan1at 10, none, [], false, 0, 0, 0⟩))
            (newCheckOutOf ⟨none, some (some (jan1at 11)), none⟩
              ⟨0, "e1", "n", "2026-01-01", jan1at 10, none, [], false, 0, 0, 0⟩)
            (newBreaksOf ⟨none, some (some (jan1at 11)), none⟩
              ⟨0, "e1", "n", "2026-01-01", jan1at 10, none, [], false, 0, 0, 0⟩)).totalWorkMinutes
          isModified := true }) :=
  ⟨by decide, by decide,
    updateAttendanceRecord_recompute_spec
      [⟨0, "e1", "n", "2026-01-01", jan1at 10, none, [], false, 0, 0, 0⟩]
      0 ⟨none, some (some (jan1at 11)), none⟩
      ⟨0, "e1", "n", "2026-01-01", jan1at 10, none, [], false, 0, 0, 0⟩
      (by decide) (by decide)⟩

/-! Claim C7. -/

/-- The best-record fold of `getOpenAttendanceRecordId` never turns a
`some` accumulator back into `none`. -/
theorem foldlBest_some (l : List Attendance) (b : Attendance) :
    ∃ c, l.foldl (fun best r =>
      match best with
      | none => some r
      | some b1 => if b1.checkIn < r.checkIn then some r else some b1) (some b) = some c := by
  induction l generalizing b with
  | nil => exact ⟨b, rfl⟩
  | cons a l ih =>
    simp only [List.foldl_cons]
    by_cases hlt : b.checkIn < a.checkIn
    · simpa [hlt] using ih a
    · simpa [hlt] using ih b

/-- `getOpenAttendanceRecordId` returns nothing exactly when the store has
no open record for the user. -/
theorem getOpen_none_iff (store : Store) (uid : String) :
    getOpenAttendanceRecord store uid = none ↔
      ∀ r ∈ store, ¬(r.userId = uid ∧ r.checkOut = none) := by
  unfold getOpenAttendanceRecord
  constructor
  · intro h r hr hcond
    have hrf : r ∈ store.filter (fun r => r.userId == uid && r.checkOut == none) :=
      List.mem_filter.mpr ⟨hr, by simp [hcond.1, hcond.2]⟩
    cases hf : store.filter (fun r => r.userId == uid && r.checkOut == none) with
    | nil => rw [hf] at hrf; exact absurd hrf (List.not_mem_nil r)
    | cons a l =>
      rw [hf] at h
      simp only [List.foldl_cons] at h
      obtain ⟨c, hc⟩ := foldlBest_some l a
      rw [hc] at h
      exact absurd h (by simp)
  · intro h
    have hf : store.filter (fun r => r.userId == uid && r.checkOut == none) = [] := by
      rw [List.filter_eq_nil_iff]
      intro r hr
      have := h r hr
      simp only [Bool.and_eq_true, beq_iff_eq, not_and] at this ⊢
      intro h1 h2
      exact this h1 h2
    rw [hf]
    rfl

/-- C7: `clockIn` fails with the already-clocked-in error whenever the
store holds an open (`checkOut == null`) record for the employee (and then
writes nothing); otherwise it appends a fresh record with `checkOut = null`,
`breaks = []`, `isModified = false` and all three minute fields zero. -/
theorem clockIn_spec (store : Store) (uid : String) (now : Int)
    (dateStr uname : String) :
    ((∃ r ∈ store, r.userId = uid ∧ r.checkOut = none) →
      clockIn now dateStr uid uname store = .error .alreadyClockedIn)
    ∧ ((∀ r ∈ store, ¬(r.userId = uid ∧ r.checkOut = none)) →
      clockIn now dateStr uid uname store =
        .ok (store ++ [⟨freshId store, uid, uname, dateStr, now, none, [], false, 0, 0, 0⟩])) := by
  constructor
  · rintro ⟨r, hr, hcond⟩
    unfold clockIn
    cases hE : getOpenAttendanceRecord store uid with
    | some _ => rfl
    | none => exact absurd hcond ((getOpen_none_iff store uid).mp hE r hr)
  · intro h
    unfold clockIn
    rw [(getOpen_none_iff store uid).mpr h]

/-- Witness for C7: a second `clockIn` against a store holding an open
record fails; `clockIn` on the empty store creates the zeroed record. -/
theorem clockIn_spec_witness :
    ((∃ r ∈ [(⟨0, "e1", "n", "2026-01-01", jan1at 9, none, [], false, 0, 0, 0⟩ : Attendance)],
        r.userId = "e1" ∧ r.checkOut = none)
      ∧ clockIn (jan1at 10) "2026-01-01" "e1" "n"
          [⟨0, "e1", "n", "2026-01-01", jan1at 9, none, [], false, 0, 0, 0⟩] =
        .error .alreadyClockedIn)
    ∧ ((∀ r ∈ ([] : Store), ¬(r.userId = "e1" ∧ r.checkOut = none))
      ∧ clockIn (jan1at 9) "2026-01-01" "e1" "n" ([] : Store) =
        .ok (([] : Store) ++
          [⟨freshId [], "e1", "n", "2026-01-01", jan1at 9, none, [], false, 0, 0, 0⟩])) :=
  ⟨⟨by decide,
      (clockIn_spec [⟨0, "e1", "n", "2026-01-01", jan1at 9, none, [], false, 0, 0, 0⟩]
        "e1" (jan1at 10) "2026-01-01" "n").1 (by decide)⟩,
    ⟨by simp,
      (clockIn_spec [] "e1" (jan1at 9) "2026-01-01" "n").2 (by simp)⟩⟩

/-! Claim C8. -/

/-- C8 counterexample: updating a record that does not exist raises the
not-found error inside the body, but the `try/catch` of
`updateAttendanceRecord` replaces it, so the caller observes the generic
update failure rather than the original error kind. -/
theorem updateAttendanceRecord_masks_error_counterexample :
    updateAttendanceRecordBody 0 ⟨none, none, none⟩ [] =
      .error .attendanceRecordNotFound
    ∧ updateAttendanceRecord 0 ⟨none, none, none⟩ [] = .error .updateFailed
    ∧ AttendanceError.updateFailed ≠ AttendanceError.attendanceRecordNotFound := by
  decide

/-- C8 (amended): the clock-in/clock-out guards, the break guards of
`startBreak`/`endBreak`, and the missing-check-in validation of
`addAttendanceRecord` propagate their own error kinds unmodified, but
`updateAttendanceRecord` catches every error raised inside its body (the
not-found error included) and surfaces the single generic update failure
instead. -/
theorem error_propagation_spec :
    (∀ (rid : Nat) (uf : UpdatedFields) (store : Store) (e : AttendanceError),
      updateAttendanceRecordBody rid uf store = .error e →
      updateAttendanceRecord rid uf store = .error .updateFailed)
    ∧ (∀ (nd : NewRecordData) (store : Store), nd.checkIn = none →
      addAttendanceRecord nd store = .error .checkInRequired)
    ∧ (∀ (now : Int) (uid : String) (store : Store),
      getOpenAttendanceRecord store uid = none →
      clockOut now uid store = .error .notClockedIn)
    ∧ (∀ (now : Int) (dateStr uid uname : String) (store : Store) (r : Attendance),
      getOpenAttendanceRecord store uid = some r →
      clockIn now dateStr uid uname store = .error .alreadyClockedIn)
    ∧ (∀ (now : Int) (uid : String) (store : Store),
      getOpenAttendanceRecord store uid = none →
      startBreak now uid store = .error .notClockedIn)
    ∧ (∀ (now : Int) (uid : String) (store : Store) (r : Attendance),
      getOpenAttendanceRecord store uid = some r →
      r.breaks.any (fun b => b.stop == none) = true →
      startBreak now uid store = .error .alreadyOnBreak)
    ∧ (∀ (now : Int) (uid : String) (store : Store),
      getOpenAttendanceRecord store uid = none →
      endBreak now uid store = .error .notClockedIn)
    ∧ (∀ (now : Int) (uid : String) (store : Store) (r : Attendance),
      getOpenAttendanceRecord store uid = some r →
      r.breaks.any (fun b => b.stop == none) = false →
      endBreak now uid store = .error .notOnBreak) := by
  refine ⟨?_, ?_, ?_, ?_, ?_, ?_, ?_, ?_⟩
  · intro rid uf store e h
    unfold updateAttendanceRecord
    rw [h]
  · intro nd store h
    unfold addAttendanceRecord
    rw [h]
  · intro now uid store h
    unfold clockOut
    rw [h]
  · intro now dateStr uid uname store r h
    unfold clockIn
    rw [h]
  · intro now uid store h
    unfold startBreak
    rw [h]
  · intro now uid store r h hbr
    unfold startBreak
    rw [h]
    simp only [hbr, if_pos]
  · intro now uid store h
    unfold endBreak
    rw [h]
  · intro now uid store r h hbr
    unfold endBreak
    rw [h]
    simp only [hbr, Bool.false_eq_true, if_false]

/-- Witness for the amended C8: the masking of the not-found error by
`updateAttendanceRecord` on the empty store, and the unmodified
already-on-break and not-on-break errors of `startBreak`/`endBreak` on a
one-record store. -/
theorem error_propagation_spec_witness :
    (updateAttendanceRecordBody 0 ⟨none, none, none⟩ [] =
      .error .attendanceRecordNotFound
    ∧ updateAttendanceRecord 0 ⟨none, none, none⟩ [] = .error .updateFailed)
    ∧ (getOpenAttendanceRecord
        [⟨0, "e1", "n", "2026-01-01", jan1at 9, none, [⟨jan1at 10, none⟩], false, 0, 0, 0⟩]
        "e1" =
      some ⟨0, "e1", "n", "2026-01-01", jan1at 9, none, [⟨jan1at 10, none⟩], false, 0, 0, 0⟩
    ∧ ((⟨0, "e1", "n", "2026-01-01", jan1at 9, none, [⟨jan1at 10, none⟩], false, 0, 0, 0⟩ :
        Attendance).breaks.any (fun b => b.stop == none)) = true
    ∧ startBreak (jan1at 11) "e1"
        [⟨0, "e1", "n", "2026-01-01", jan1at 9, none, [⟨jan1at 10, none⟩], false, 0, 0, 0⟩] =
      .error .alreadyOnBreak)
    ∧ (getOpenAttendanceRecord
        [⟨0, "e1", "n", "2026-01-01", jan1at 9, none, [], false, 0, 0, 0⟩] "e1" =
      some ⟨0, "e1", "n", "2026-01-01", jan1at 9, none, [], false, 0, 0, 0⟩
    ∧ ((⟨0, "e1", "n", "2026-01-01", jan1at 9, none, [], false, 0, 0, 0⟩ :
        Attendance).breaks.any (fun b => b.stop == none)) = false
    ∧ endBreak (jan1at 11) "e1"
        [⟨0, "e1", "n", "2026-01-01", jan1at 9, none, [], false, 0, 0, 0⟩] =
      .error .notOnBreak) :=
  ⟨⟨by decide,
      error_propagation_spec.1 0 ⟨none, none, none⟩ [] .attendanceRecordNotFound (by decide)⟩,
    ⟨by decide, by decide,
      error_propagation_spec.2.2.2.2.2.1 (jan1at 11) "e1"
        [⟨0, "e1", "n", "2026-01-01", jan1at 9, none, [⟨jan1at 10, none⟩], false, 0, 0, 0⟩]
        ⟨0, "e1", "n", "2026-01-01", jan1at 9, none, [⟨jan1at 10, none⟩], false, 0, 0, 0⟩
        (by decide) (by decide)⟩,
    ⟨by decide, by decide,
      error_propagation_spec.2.2.2.2.2.2.2 (jan1at 11) "e1"
        [⟨0, "e1", "n", "2026-01-01", jan1at 9, none, [], false, 0, 0, 0⟩]
        ⟨0, "e1", "n", "2026-01-01", jan1at 9, none, [], false, 0, 0, 0⟩
        (by decide) (by decide)⟩⟩

/-! Claim C9. -/

/-- C9: updating a stored record that has a non-null `checkOut` with
`{checkOut: null}` persists `checkOut` as null while keeping the previously
stored minute fields unchanged (the recompute guard sees only falsy
updates), leaving an open record that still carries the old derived
fields; `isModified` is set. -/
theorem update_checkOut_null_keeps_derived (store : Store) (rid : Nat)
    (rec : Attendance) (co : Int) (hF : findById store rid = some rec)
    (_hco : rec.checkOut = some co) :
    updateAttendanceRecord rid ⟨none, some none, none⟩ store =
      .ok (updateById store rid fun r =>
        { r with
          checkOut := none
          regularWorkMinutes := rec.regularWorkMinutes
          nightWorkMinutes := rec.nightWorkMinutes
          totalWorkMinutes := rec.totalWorkMinutes
          isModified := true }) := by
  unfold updateAttendanceRecord updateAttendanceRecordBody
  rw [hF]
  rfl

/-- Witness for C9: a closed 10:00 → 11:00 record with 60 stored regular
minutes reopened by a `{checkOut: null}` edit keeps `(60, 0, 60)`. -/
theorem update_checkOut_null_keeps_derived_witness :
    findById [⟨0, "e1", "n", "2026-01-01", jan1at 10, some (jan1at 11), [], false, 60, 0, 60⟩] 0 =
      some ⟨0, "e1", "n", "2026-01-01", jan1at 10, some (jan1at 11), [], false, 60, 0, 60⟩
    ∧ (⟨0, "e1", "n", "2026-01-01", jan1at 10, some (jan1at 11), [], false, 60, 0, 60⟩ :
        Attendance).checkOut = some (jan1at 11)
    ∧ updateAttendanceRecord 0 ⟨none, some none, none⟩
        [⟨0, "e1", "n", "2026-01-01", jan1at 10, some (jan1at 11), [], false, 60, 0, 60⟩] =
      .ok (updateById
        [⟨0, "e1", "n", "2026-01-01", jan1at 10, some (jan1at 11), [], false, 60, 0, 60⟩]
        (0 : Nat) fun r =>
        { r with
          checkOut := none
          regularWorkMinutes := (⟨0, "e1", "n", "2026-01-01", jan1at 10, some (jan1at 11),
            [], false, 60, 0, 60⟩ : Attendance).regularWorkMinutes
          nightWorkMinutes := (⟨0, "e1", "n", "2026-01-01", jan1at 10, some (jan1at 11),
            [], false, 60, 0, 60⟩ : Attendance).nightWorkMinutes
          totalWorkMinutes := (⟨0, "e1", "n", "2026-01-01", jan1at 10, some (jan1at 11),
            [], false, 60, 0, 60⟩ : Attendance).totalWorkMinutes
          isModified := true }) :=
  ⟨by decide, by decide,
    update_checkOut_null_keeps_derived
      [⟨0, "e1", "n", "2026-01-01", jan1at 10, some (jan1at 11), [], false, 60, 0, 60⟩]
      0 ⟨0, "e1", "n", "2026-01-01", jan1at 10, some (jan1at 11), [], false, 60, 0, 60⟩
      (jan1at 11) (by decide) (by decide)⟩

/-! Claim C6. -/

theorem lookupAssoc_setAssoc_self (l : List (String × AggEntry)) (k : String)
    (v : AggEntry) : lookupAssoc (setAssoc l k v) k = some v := by
  induction l with
  | nil => simp [setAssoc, lookupAssoc]
  | cons p rest ih =>
    obtain ⟨k1, v1⟩ := p
    unfold setAssoc
    by_cases h : k1 = k
    · simp [lookupAssoc, h]
    · simp only [beq_eq_false_iff_ne.mpr h, Bool.false_eq_true, if_false]
      unfold lookupAssoc
      simp only [beq_eq_false_iff_ne.mpr h, Bool.false_eq_true, if_false]
      exact ih

theorem lookupAssoc_setAssoc_ne (l : List (String × AggEntry)) (k k2 : String)
    (v : AggEntry) (h : k ≠ k2) :
    lookupAssoc (setAssoc l k v) k2 = lookupAssoc l k2 := by
  induction l with
  | nil =>
    unfold setAssoc lookupAssoc
    simp only [beq_eq_false_iff_ne.mpr h, Bool.false_eq_true, if_false]
    rfl
  | cons p rest ih =>
    obtain ⟨k1, v1⟩ := p
    by_cases h1 : k1 = k
    · subst h1
      unfold setAssoc
      simp only [beq_self_eq_true, if_true]
      unfold lookupAssoc
      simp [beq_eq_false_iff_ne.mpr h]
    · unfold setAssoc
      simp only [beq_eq_false_iff_ne.mpr h1, Bool.false_eq_true, if_false]
      unfold lookupAssoc
      by_cases h2 : k1 = k2
      · simp [h2]
      · simp only [beq_eq_false_iff_ne.mpr h2, Bool.false_eq_true, if_false]
        exact ih

/-- Folding `aggStep` over records adds, per employee and field by field,
exactly the sums of the filtered records' minute fields on top of whatever
the accumulator already holds. -/
theorem agg_fold_field (f : AggEntry → Int) (g : Attendance → Int)
    (hfg : ∀ (c : AggEntry) (r : Attendance),
      f { c with
          regularWorkMinutes := c.regularWorkMinutes + r.regularWorkMinutes
          nightWorkMinutes := c.nightWorkMinutes + r.nightWorkMinutes
          totalWorkMinutes := c.totalWorkMinutes + r.totalWorkMinutes } = f c + g r)
    (hf0 : ∀ name, f ⟨name, 0, 0, 0⟩ = 0) :
    ∀ (records : List Attendance) (acc : List (String × AggEntry)) (uid : String),
    ((lookupAssoc (records.foldl aggStep acc) uid).map f).getD 0 =
      ((lookupAssoc acc uid).map f).getD 0 +
      ((records.filter (fun r => r.userId == uid)).map g).sum := by
  intro records
  induction records with
  | nil => intro acc uid; simp
  | cons r rest ih =>
    intro acc uid
    simp only [List.foldl_cons, List.filter_cons]
    by_cases hu : r.userId = uid
    · simp only [beq_iff_eq.mpr hu, eq_self_iff_true, if_true, List.map_cons,
        List.sum_cons]
      rw [ih (aggStep acc r) uid]
      have hset : lookupAssoc (aggStep acc r) uid =
          some { (lookupAssoc acc r.userId).getD ⟨r.userName, 0, 0, 0⟩ with
            regularWorkMinutes :=
              ((lookupAssoc acc r.userId).getD ⟨r.userName, 0, 0, 0⟩).regularWorkMinutes +
                r.regularWorkMinutes
            nightWorkMinutes :=
              ((lookupAssoc acc r.userId).getD ⟨r.userName, 0, 0, 0⟩).nightWorkMinutes +
                r.nightWorkMinutes
            totalWorkMinutes :=
              ((lookupAssoc acc r.userId).getD ⟨r.userName, 0, 0, 0⟩).totalWorkMinutes +
                r.totalWorkMinutes } := by
        unfold aggStep
        rw [hu]
        exact lookupAssoc_setAssoc_self acc uid _
      rw [hset]
      simp only [Option.map_some', Option.getD_some]
      rw [hfg]
      cases hacc : lookupAssoc acc r.userId with
      | none =>
        rw [hu] at hacc
        rw [hacc]
        simp only [Option.getD_none, Option.map_none', hf0]
        omega
      | some e =>
        rw [hu] at hacc
        rw [hacc]
        simp only [Option.getD_some, Option.map_some']
        omega
    · simp only [beq_eq_false_iff_ne.mpr hu, Bool.false_eq_true, if_false]
      rw [ih (aggStep acc r) uid]
      unfold aggStep
      rw [lookupAssoc_setAssoc_ne acc r.userId uid _ hu]

/-- C6: the aggregation pipeline groups records by employee id, summing the
regular, night and total minute fields independently
(`getAggregatedAttendance`), and the admin page's enrichment computes
`estimatedSalary = Math.round(regular/60*rate + night/60*rate*1.5)`; in
particular two records `(regular 300, night 60)` and `(regular 120, night 0)`
for one employee aggregate to `(420, 60, 480)`, and at hourly rate 10000
the estimated pay is 85000. -/
theorem aggregation_spec :
    (∀ (records : List Attendance) (uid : String) (e : AggEntry),
      lookupAssoc (getAggregatedAttendance records) uid = some e →
      e.regularWorkMinutes =
        ((records.filter (fun r => r.userId == uid)).map
          (fun r => r.regularWorkMinutes)).sum
      ∧ e.nightWorkMinutes =
        ((records.filter (fun r => r.userId == uid)).map
          (fun r => r.nightWorkMinutes)).sum
      ∧ e.totalWorkMinutes =
        ((records.filter (fun r => r.userId == uid)).map
          (fun r => r.totalWorkMinutes)).sum)
    ∧ getAggregatedAttendance
        [⟨1, "e1", "A", "2026-01-01", 0, some 0, [], false, 300, 60, 360⟩,
         ⟨2, "e1", "A", "2026-01-02", 0, some 0, [], false, 120, 0, 120⟩] =
      [("e1", ⟨"A", 420, 60, 480⟩)]
    ∧ estimatedSalary 420 60 10000 = 85000 := by
  refine ⟨?_, by decide, by norm_num [estimatedSalary, mathRound]⟩
  intro records uid e he
  have hr := agg_fold_field (fun e => e.regularWorkMinutes)
    (fun r => r.regularWorkMinutes) (fun c r => rfl) (fun name => rfl)
    records [] uid
  have hn := agg_fold_field (fun e => e.nightWorkMinutes)
    (fun r => r.nightWorkMinutes) (fun c r => rfl) (fun name => rfl)
    records [] uid
  have ht := agg_fold_field (fun e => e.totalWorkMinutes)
    (fun r => r.totalWorkMinutes) (fun c r => rfl) (fun name => rfl)
    records [] uid
  unfold getAggregatedAttendance at he
  rw [he] at hr hn ht
  simp only [Option.map_some', Option.getD_some, lookupAssoc, Option.map_none',
    Option.getD_none] at hr hn ht
  omega

/-- Witness for C6's grouping part on the two-record example store. -/
theorem aggregation_spec_witness :
    lookupAssoc (getAggregatedAttendance
        [⟨1, "e1", "A", "2026-01-01", 0, some 0, [], false, 300, 60, 360⟩,
         ⟨2, "e1", "A", "2026-01-02", 0, some 0, [], false, 120, 0, 120⟩]) "e1" =
      some ⟨"A", 420, 60, 480⟩
    ∧ ((⟨"A", 420, 60, 480⟩ : AggEntry).regularWorkMinutes =
        ((([⟨1, "e1", "A", "2026-01-01", 0, some 0, [], false, 300, 60, 360⟩,
           ⟨2, "e1", "A", "2026-01-02", 0, some 0, [], false, 120, 0, 120⟩] :
          List Attendance).filter (fun r => r.userId == "e1")).map
          (fun r => r.regularWorkMinutes)).sum
      ∧ (⟨"A", 420, 60, 480⟩ : AggEntry).nightWorkMinutes =
        ((([⟨1, "e1", "A", "2026-01-01", 0, some 0, [], false, 300, 60, 360⟩,
           ⟨2, "e1", "A", "2026-01-02", 0, some 0, [], false, 120, 0, 120⟩] :
          List Attendance).filter (fun r => r.userId == "e1")).map
          (fun r => r.nightWorkMinutes)).sum
      ∧ (⟨"A", 420, 60, 480⟩ : AggEntry).totalWorkMinutes =
        ((([⟨1, "e1", "A", "2026-01-01", 0, some 0, [], false, 300, 60, 360⟩,
           ⟨2, "e1", "A", "2026-01-02", 0, some 0, [], false, 120, 0, 120⟩] :
          List Attendance).filter (fun r => r.userId == "e1")).map
          (fun r => r.totalWorkMinutes)).sum) :=
  ⟨by decide,
    aggregation_spec.1
      [⟨1, "e1", "A", "2026-01-01", 0, some 0, [], false, 300, 60, 360⟩,
       ⟨2, "e1", "A", "2026-01-02", 0, some 0, [], false, 120, 0, 120⟩]
      "e1" ⟨"A", 420, 60, 480⟩ (by decide)⟩

/-! Claim C10. -/

/-- Counting a disjunction of pointwise-exclusive predicates splits into
the two separate counts. -/
theorem countP_or_disjoint {α : Type} (l : List α) (p q : α → Bool)
    (h : ∀ x ∈ l, ¬(p x = true ∧ q x = true)) :
    l.countP (fun x => p x || q x) = l.countP p + l.countP q := by
  induction l with
  | nil => rfl
  | cons a l ih =>
    simp only [List.countP_cons]
    rw [ih (fun x hx => h x (List.mem_cons_of_mem a hx))]
    have ha := h a (List.mem_cons_self a l)
    cases hp : p a <;> cases hq : q a <;> simp [hp, hq] at ha ⊢ <;> omega

/-- The number of `k < n` lying in the integer window `[P, Q)`. -/
theorem countP_range_window (n : Nat) (P Q : Int) (h0 : 0 ≤ P) (hPQ : P ≤ Q) :
    (((List.range n).countP
      (fun k : Nat => decide (P ≤ (k : Int)) && decide ((k : Int) < Q))) : Int) =
      min Q n - min P n := by
  induction n with
  | zero =>
    simp only [List.range_zero, List.countP_nil, Nat.cast_zero]
    omega
  | succ n ih =>
    rw [List.range_succ, List.countP_append]
    simp only [List.countP_cons, List.countP_nil, Nat.zero_add]
    push_cast
    rw [ih]
    by_cases h1 : P ≤ (n : Int) <;> by_cases h2 : (n : Int) < Q <;>
      simp [h1, h2] <;> omega

/-- A truncating division by 1000 of a multiple of 1000 is exact. -/
theorem tdiv_thousand (b : Int) : Int.tdiv (1000 * b) 1000 = b :=
  Int.mul_tdiv_cancel_left b (by norm_num)

/-- The break-subtracting fold of the legacy calculator is the base minus
the per-break second counts. -/
theorem legacy_fold (l : List BreakRecord) (base : Int) :
    l.foldl (fun acc b =>
      match b.stop with
      | none => acc
      | some e => acc - differenceInSeconds e b.start) base =
    base - (l.map (fun b =>
      match b.stop with
      | none => 0
      | some e => differenceInSeconds e b.start)).sum := by
  induction l generalizing base with
  | nil => simp
  | cons b rest ih =>
    simp only [List.foldl_cons, List.map_cons, List.sum_cons]
    cases hb : b.stop with
    | none => rw [ih]; ring_nf
    | some e => rw [ih]; ring

/-- For closed breaks with minute-aligned endpoints, the per-break second
counts of the legacy calculator scale to the break lengths. -/
theorem legacy_sec_sum (breaks : List BreakRecord)
    (hb : ∀ b ∈ breaks, ∃ e, b.stop = some e ∧ (60000 : Int) ∣ (e - b.start)) :
    1000 * (breaks.map (fun b =>
      match b.stop with
      | none => 0
      | some e => differenceInSeconds e b.start)).sum =
    (breaks.map (fun b => b.stop.getD b.start - b.start)).sum := by
  induction breaks with
  | nil => simp
  | cons b rest ih =>
    obtain ⟨e, hstop, c, hc⟩ := hb b (List.mem_cons_self b rest)
    simp only [List.map_cons, List.sum_cons, hstop, Option.getD_some]
    rw [mul_add, ih (fun x hx => hb x (List.mem_cons_of_mem b hx))]
    have : differenceInSeconds e b.start = 60 * c := by
      unfold differenceInSeconds
      rw [hc, show (60000 : Int) * c = 1000 * (60 * c) by ring, tdiv_thousand]
    rw [this]
    omega

/-- Minute alignment makes `startOfMinute` the identity. -/
theorem startOfMinute_aligned (ci : Int) (h : (60000 : Int) ∣ ci) :
    startOfMinute ci = ci := by
  unfold startOfMinute
  omega

theorem loopIters_exact (ci co : Int) (A : Nat) (hA : co - ci = 60000 * (A : Int)) :
    loopIters ci co = A := by
  unfold loopIters
  omega

/-- The walk's total is the number of minute marks surviving the break
filter. -/
theorem calc_total_eq_filter_length (ci co : Int) (breaks : List BreakRecord) :
    (calculateWorkMinutes (some ci) (some co) breaks).totalWorkMinutes =
      ((((minuteMarks ci co).filter
        (fun m => !(isBreakMinute breaks m))).length) : Int) := by
  unfold calculateWorkMinutes
  simp only
  rw [List.length_eq_countP_add_countP (fun m => isNightHour (hourOf m))]
  simp only [decide_not, Bool.decide_eq_true]
  push_cast
  ring

/-- For closed, minute-aligned, pairwise-disjoint breaks inside the walked
span, the number of break minute marks is exactly the summed break length
(in milliseconds, scaled by the minute). -/
theorem covered_count (ci : Int) (A : Nat) :
    ∀ breaks : List BreakRecord,
    (∀ b ∈ breaks, ∃ e, b.stop = some e ∧ (60000 : Int) ∣ (b.start - ci) ∧
      (60000 : Int) ∣ (e - ci) ∧ ci ≤ b.start ∧ b.start ≤ e ∧ e ≤ ci + 60000 * (A : Int)) →
    breaks.Pairwise (fun b1 b2 => ∀ e1 e2, b1.stop = some e1 → b2.stop = some e2 →
      e1 ≤ b2.start ∨ e2 ≤ b1.start) →
    60000 * (((List.range A).countP
        (fun k : Nat => isBreakMinute breaks (ci + 60000 * (k : Int)))) : Int) =
      (breaks.map (fun b => b.stop.getD b.start - b.start)).sum := by
  intro breaks
  induction breaks with
  | nil =>
    intro _ _
    simp [isBreakMinute]
  | cons b bs ih =>
    intro hb hdisj
    obtain ⟨e, hstop, hds, hde, hcs, hse, hec⟩ := hb b (List.mem_cons_self b bs)
    obtain ⟨hhead, htail⟩ := List.pairwise_cons.mp hdisj
    have hsplit : ∀ k : Nat, isBreakMinute (b :: bs) (ci + 60000 * (k : Int)) =
        ((decide (b.start ≤ ci + 60000 * (k : Int)) &&
          decide (ci + 60000 * (k : Int) < e)) ||
          isBreakMinute bs (ci + 60000 * (k : Int))) := by
      intro k
      unfold isBreakMinute
      rw [List.any_cons, hstop]
    rw [List.countP_congr (fun k _ => by rw [hsplit k])]
    rw [countP_or_disjoint]
    · have hcb : (((List.range A).countP
          (fun k : Nat => decide (b.start ≤ ci + 60000 * (k : Int)) &&
            decide (ci + 60000 * (k : Int) < e))) : Int) =
          (e - b.start) / 60000 := by
        obtain ⟨p, hp⟩ := hds
        obtain ⟨q, hq⟩ := hde
        have hcong : ((List.range A).countP
            (fun k : Nat => decide (b.start ≤ ci + 60000 * (k : Int)) &&
              decide (ci + 60000 * (k : Int) < e))) =
            ((List.range A).countP
              (fun k : Nat => decide (p ≤ (k : Int)) && decide ((k : Int) < q))) := by
          apply List.countP_congr
          intro k _
          constructor
          · intro hcov
            simp only [Bool.and_eq_true, decide_eq_true_eq] at hcov ⊢
            omega
          · intro hcov
            simp only [Bool.and_eq_true, decide_eq_true_eq] at hcov ⊢
            omega
        rw [hcong, countP_range_window A p q (by omega) (by omega)]
        omega
      rw [Nat.cast_add, mul_add, hcb,
        ih (fun x hx => hb x (List.mem_cons_of_mem b hx)) htail]
      simp only [List.map_cons, List.sum_cons, hstop, Option.getD_some]
      have : 60000 * ((e - b.start) / 60000) = e - b.start := by omega
      omega
    · intro k _ hboth
      obtain ⟨h1, h2⟩ := hboth
      simp only [Bool.and_eq_true, decide_eq_true_eq] at h1
      unfold isBreakMinute at h2
      rw [List.any_eq_true] at h2
      obtain ⟨b2, hb2, hcov2⟩ := h2
      obtain ⟨e2, hstop2, _, _, _, _, _⟩ := hb b2 (List.mem_cons_of_mem b hb2)
      rw [hstop2] at hcov2
      simp only [Bool.and_eq_true, decide_eq_true_eq] at hcov2
      rcases hhead b2 hb2 e e2 hstop hstop2 with hd | hd <;> omega

/-- C10: on inputs whose check-in, check-out and break endpoints all lie on
exact minute boundaries, with `checkIn ≤ checkOut` and all breaks closed,
pairwise disjoint and contained in `[checkIn, checkOut)`, the legacy
difference-based calculator and the minute-walk calculator agree on the
total work minutes. -/
theorem calculators_agree (ci co : Int) (breaks : List BreakRecord)
    (hci : (60000 : Int) ∣ ci) (hco : (60000 : Int) ∣ co) (hle : ci ≤ co)
    (hb : ∀ b ∈ breaks, ∃ e, b.stop = some e ∧ (60000 : Int) ∣ b.start ∧
      (60000 : Int) ∣ e ∧ ci ≤ b.start ∧ b.start ≤ e ∧ e ≤ co)
    (hdisj : breaks.Pairwise (fun b1 b2 => ∀ e1 e2, b1.stop = some e1 → b2.stop = some e2 →
      e1 ≤ b2.start ∨ e2 ≤ b1.start)) :
    calculateTotalWorkMinutes (some ci) (some co) breaks =
      (calculateWorkMinutes (some ci) (some co) breaks).totalWorkMinutes := by
  obtain ⟨a, ha⟩ := hci
  obtain ⟨c, hc⟩ := hco
  -- the walked span in whole minutes
  set A : Nat := (c - a).toNat with hA
  have hca : co - ci = 60000 * (A : Int) := by omega
  -- the walk side: marks are ci, ci+60000, ..., and the total counts the
  -- marks outside every break
  have hsom : startOfMinute ci = ci := startOfMinute_aligned ci ⟨a, ha⟩
  have hmarks : minuteMarks ci co =
      (List.range A).map (fun k : Nat => ci + 60000 * (k : Int)) := by
    unfold minuteMarks
    rw [hsom, loopIters_exact ci co A hca]
  have hwalk : (calculateWorkMinutes (some ci) (some co) breaks).totalWorkMinutes =
      ((A : Int) - ((List.range A).countP
        (fun k : Nat => isBreakMinute breaks (ci + 60000 * (k : Int))) : Int)) := by
    rw [calc_total_eq_filter_length, hmarks]
    rw [← List.countP_eq_length_filter]
    rw [List.countP_map]
    have hsplit := List.length_eq_countP_add_countP
      (fun k : Nat => isBreakMinute breaks (ci + 60000 * (k : Int))) (List.range A)
    rw [List.length_range] at hsplit
    have hcomp : ((List.range A).countP
        ((fun m => !(isBreakMinute breaks m)) ∘ fun k : Nat => ci + 60000 * (k : Int))) =
        ((List.range A).countP
          (fun k : Nat => !(isBreakMinute breaks (ci + 60000 * (k : Int))))) := rfl
    rw [hcomp]
    simp only [decide_not, Bool.decide_eq_true] at hsplit
    omega
  -- the covered-minutes count equals the summed break lengths
  have hcov := covered_count ci A breaks
    (by
      intro x hx
      obtain ⟨e, hstop, hdsx, hdex, hcsx, hsex, hecx⟩ := hb x hx
      exact ⟨e, hstop, by omega, by omega, hcsx, hsex, by omega⟩)
    hdisj
  -- the legacy side
  have hsec := legacy_sec_sum breaks
    (by
      intro x hx
      obtain ⟨e, hstop, hdsx, hdex, _, _, _⟩ := hb x hx
      exact ⟨e, hstop, by omega⟩)
  unfold calculateTotalWorkMinutes
  simp only
  rw [legacy_fold]
  have hbase : differenceInSeconds co ci = 60 * (A : Int) := by
    unfold differenceInSeconds
    rw [hca, show (60000 : Int) * (A : Int) = 1000 * (60 * (A : Int)) by ring,
      tdiv_thousand]
  rw [hbase]
  rw [hwalk]
  -- let T be the walk total (a count, hence non-negative) and finish by
  -- linear arithmetic
  have hTnonneg : (0 : Int) ≤ (A : Int) - ((List.range A).countP
      (fun k : Nat => isBreakMinute breaks (ci + 60000 * (k : Int))) : Int) := by
    have : ((List.range A).countP
        (fun k : Nat => isBreakMinute breaks (ci + 60000 * (k : Int)))) ≤ A := by
      have := List.countP_le_length
        (p := fun k : Nat => isBreakMinute breaks (ci + 60000 * (k : Int)))
        (l := List.range A)
      rwa [List.length_range] at this
    omega
  omega

/-- Witness for C10: a ten-minute aligned shift with one aligned one-minute
break; both calculators return 9 minutes. -/
theorem calculators_agree_witness :
    (60000 : Int) ∣ 0 ∧ (60000 : Int) ∣ 600000 ∧ (0 : Int) ≤ 600000
    ∧ (∀ b ∈ [(⟨120000, some 180000⟩ : BreakRecord)], ∃ e, b.stop = some e ∧
        (60000 : Int) ∣ b.start ∧ (60000 : Int) ∣ e ∧ (0 : Int) ≤ b.start ∧
        b.start ≤ e ∧ e ≤ 600000)
    ∧ ([(⟨120000, some 180000⟩ : BreakRecord)].Pairwise
        (fun b1 b2 => ∀ e1 e2, b1.stop = some e1 → b2.stop = some e2 →
          e1 ≤ b2.start ∨ e2 ≤ b1.start))
    ∧ calculateTotalWorkMinutes (some 0) (some 600000) [⟨120000, some 180000⟩] =
        (calculateWorkMinutes (some 0) (some 600000)
          [⟨120000, some 180000⟩]).totalWorkMinutes :=
  ⟨⟨0, by norm_num⟩, ⟨10, by norm_num⟩, by norm_num,
    fun b hb => by
      rw [List.mem_singleton] at hb
      subst hb
      exact ⟨180000, rfl, ⟨2, by norm_num⟩, ⟨3, by norm_num⟩, by norm_num,
        by norm_num, by norm_num⟩,
    List.pairwise_singleton _ _,
    calculators_agree 0 600000 [⟨120000, some 180000⟩]
      ⟨0, by norm_num⟩ ⟨10, by norm_num⟩ (by norm_num)
      (fun b hb => by
        rw [List.mem_singleton] at hb
        subst hb
        exact ⟨180000, rfl, ⟨2, by norm_num⟩, ⟨3, by norm_num⟩, by norm_num,
          by norm_num, by norm_num⟩)
      (List.pairwise_singleton _ _)⟩

end AttendanceBook
